import Mathlib

/-!
Verification of the spartic core: the synchronized-keystream primitive
(`src/synchronized_keystream.js`, `src/xor_all.js`) and the per-group session
state machine (`src/spartic_session.js`).

Modelling conventions for the shallow embedding:

* Buffers are `List Nat`, one entry per byte (values are bytes in actual runs,
  but none of the verified properties depend on a 0..255 bound).
* Peer public keys are abstract identifiers (`Nat`).  The JavaScript code keys
  its `Map`s by `Buffer` object identity and its plain-object maps by the
  stringified buffer; we assume, as the router guarantees, that the same peer
  is always presented by the same object, so identifiers are faithful.
* The external XSalsa20 stream cipher is an opaque parameter
  `Cipher : nonce → key → position → byte`; `stream.update` XORs those bytes
  into its input starting at position 0.
* The source files are ES modules and therefore run in strict mode: an
  assignment to an undeclared identifier (`secrets = []`,
  `blocks = [...]`) throws a `ReferenceError`; reading a property of
  `undefined` (`this.theirBlocks[p]`, `this.prototype.BLOCK_SIZE`,
  `this.keystream.read` before construction) throws a `TypeError`.  Session
  operations therefore return `state × Option JsError`: the state reached when
  the method returns or the exception escapes, and the exception if any
  (JavaScript exceptions do not roll back earlier mutations).
* `Buffer.writeUInt32BE` throws a `RangeError` on a negative value, so the
  keystream `read` is `Option`-valued: `none` models that throw.
-/

/-- The external XSalsa20 stream cipher, abstracted: given a 24-byte nonce and
a 32-byte key, produce the keystream byte at a position. -/
abbrev Cipher := List Nat → List Nat → Nat → Nat

/-- The npm `buffer-xor` helper: byte-wise XOR of two buffers (always applied
to equal-length buffers in this code base). -/
def buffer_xor (a b : List Nat) : List Nat :=
  List.zipWith Nat.xor a b

/-- `xor_all` from `src/xor_all.js`: XOR together all the buffers in an array;
`null` (here `none`) for an empty array. -/
def xor_all (buffers : List (List Nat)) : Option (List Nat) :=
  match buffers with
  | [] => none
  | [b] => some b
  | b :: rest => some (rest.foldl buffer_xor b)

/-- Fold of `Nat.xor` over a list, the byte-level shadow of repeated
`buffer_xor`. -/
def xorList (l : List Nat) : Nat :=
  l.foldr Nat.xor 0

/-- JavaScript `ToInt32`: reduce mod 2^32 into the signed range. Both
`x >> 32` (shift counts are taken mod 32, so this shifts by 0) and
`x & 0xFFFFFFFF` (AND with the int32 value -1) evaluate to `ToInt32 x`. -/
def jsToInt32 (n : Nat) : Int :=
  if n % 2 ^ 32 < 2 ^ 31 then ((n % 2 ^ 32 : Nat) : Int)
  else ((n % 2 ^ 32 : Nat) : Int) - 2 ^ 32

/-- Big-endian 4-byte encoding, as written by `Buffer.writeUInt32BE`. -/
def be32 (v : Nat) : List Nat :=
  [v / 2 ^ 24 % 256, v / 2 ^ 16 % 256, v / 2 ^ 8 % 256, v % 256]

/-- Big-endian 8-byte encoding.  Used only to state the spec's claimed nonce
layout (the code never computes a be64). -/
def be64 (v : Nat) : List Nat :=
  [v / 2 ^ 56 % 256, v / 2 ^ 48 % 256, v / 2 ^ 40 % 256, v / 2 ^ 32 % 256,
   v / 2 ^ 24 % 256, v / 2 ^ 16 % 256, v / 2 ^ 8 % 256, v % 256]

/-- Modelled from the spec's words (for comparison only): a 24-byte nonce of
16 zero bytes followed by the big-endian 64-bit sequence number. -/
def specNonce (s : Nat) : List Nat :=
  List.replicate 16 0 ++ be64 s

/-- The nonce actually built by `read` in `src/synchronized_keystream.js`:
a zeroed 24-byte buffer, then `writeUInt32BE(sequence_number >> 32, 0)` and
`writeUInt32BE(sequence_number & 0xFFFFFFFF, 4)`.  In JavaScript both written
values equal `ToInt32(sequence_number)`; a negative value makes
`writeUInt32BE` throw a `RangeError`, modelled as `none`. -/
def nonceFor (s : Nat) : Option (List Nat) :=
  let hi := jsToInt32 s
  let lo := jsToInt32 s
  if hi < 0 ∨ lo < 0 then none
  else some (be32 hi.toNat ++ be32 lo.toNat ++ List.replicate 16 0)

/-- The first `L` bytes of one XSalsa20 keystream. -/
def streamBytes (cipher : Cipher) (nonce key : List Nat) (L : Nat) : List Nat :=
  (List.range L).map (cipher nonce key)

/-- The XOR loop of `read`: starting from an all-zero scratch buffer of length
`L`, XOR in each per-secret keystream (`scratch = stream.update(scratch)`). -/
def readRaw (cipher : Cipher) (keys : List (List Nat)) (nonce : List Nat) (L : Nat) : List Nat :=
  keys.foldl (fun scratch key => buffer_xor scratch (streamBytes cipher nonce key L))
    (List.replicate L 0)

/-- `SynchronizedKeystream` from `src/synchronized_keystream.js`: an ordered
list of 32-byte shared secrets. -/
structure SynchronizedKeystream where
  keys : List (List Nat)
deriving DecidableEq

/-- `SynchronizedKeystream.SECRET_SIZE`. -/
def SynchronizedKeystream.SECRET_SIZE : Nat := 32

/-- The constructor: `this.keys = shared_secrets.slice(0, shared_secrets.length)`. -/
def SynchronizedKeystream.create (shared_secrets : List (List Nat)) : SynchronizedKeystream :=
  { keys := shared_secrets.take shared_secrets.length }

/-- `read(sequence_number, length)`: build the nonce, then XOR all per-secret
keystreams into a zeroed buffer of the requested length. -/
def SynchronizedKeystream.read (ks : SynchronizedKeystream) (cipher : Cipher)
    (sequence_number length : Nat) : Option (List Nat) :=
  (nonceFor sequence_number).map fun nonce => readRaw cipher ks.keys nonce length

/-- The natural numbers regarded as an additive monoid under XOR, used to sum
keystream bytes with `Finset.sum`. -/
def XorNat : Type := Nat

instance : DecidableEq XorNat :=
  inferInstanceAs (DecidableEq Nat)

instance : Zero XorNat :=
  ⟨(0 : Nat)⟩

instance : Add XorNat :=
  ⟨fun a b => Nat.xor a b⟩

instance : AddCommMonoid XorNat where
  add_assoc := Nat.xor_assoc
  zero_add := Nat.zero_xor
  add_zero := Nat.xor_zero
  add_comm := Nat.xor_comm
  nsmul := nsmulRec
  nsmul_zero := fun _ => rfl
  nsmul_succ := fun _ _ => rfl

/-- The identity map from bytes to `XorNat`. -/
def toX (n : Nat) : XorNat := n

/-- The correctly paired secrets list of participant `p` among `n` parties:
one shared secret `sec p q` for each other participant `q`, where `sec` is
symmetric so that the same secret appears in exactly the two paired
participants' lists. -/
def pairedList (n : Nat) (sec : Fin n → Fin n → List Nat) (p : Fin n) : List (List Nat) :=
  ((List.finRange n).filter fun q => q != p).map (sec p)

/-- The three outbound wire message variants queued by a session
(`['key', k]`, `['block', seq, data]`, `['error', text]`). -/
inductive OutMsg where
  | key (sharedKey : List Nat)
  | block (sequenceNumber : Nat) (payload : List Nat)
  | error (text : String)
deriving DecidableEq

/-- A JavaScript exception escaping a session method. -/
inductive JsError where
  | refError (text : String)
  | typeError (text : String)
  | error (text : String)
deriving DecidableEq

/-- Insertion-ordered map update, as performed by `Map.set` and by assignment
to a plain-object property: overwrite in place if the key is present, append
otherwise. -/
def setA {α : Type} : List (Nat × α) → Nat → α → List (Nat × α)
  | [], k, v => [(k, v)]
  | (k', v') :: rest, k, v =>
    if k' = k then (k, v) :: rest else (k', v') :: setA rest k v

/-- `this.theirSharedKeys.get(pubkey)` with JavaScript truthiness: the entry
is truthy exactly when the slot exists and has been filled (`none` covers both
a missing entry, `undefined`, and an empty slot, `null`). -/
def jsGetKey (m : List (Nat × Option (List Nat))) (p : Nat) : Option (List Nat) :=
  (List.lookup p m).join

/-- `this.queues.get(pubkey).push(msg)`: append to the peer's queue, or throw
a `TypeError` if the peer has no queue (`undefined.push`). -/
def pushMsg (queues : List (Nat × List OutMsg)) (pubkey : Nat) (msg : OutMsg) :
    List (Nat × List OutMsg) × Option JsError :=
  match List.lookup pubkey queues with
  | none => (queues, some (.typeError "Cannot read properties of undefined (reading push)"))
  | some q => (setA queues pubkey (q ++ [msg]), none)

/-- One pipelined round (`this.currentRound` / `this.nextRound`). -/
structure SessionRound where
  sequenceNumber : Nat
  theirBlocks : List (Nat × List Nat)
  ourBlock : Option (List Nat)
deriving DecidableEq

/-- The per-group session state of `src/spartic_session.js`.  `keystream` is
`none` while the `keystream` attribute is still undefined. -/
structure SparticSession where
  otherPubkeys : List Nat
  ourSharedKeys : List (Nat × List Nat)
  theirSharedKeys : List (Nat × Option (List Nat))
  keystream : Option SynchronizedKeystream
  currentRound : Option SessionRound
  nextRound : SessionRound
  queues : List (Nat × List OutMsg)
  results : List (List Nat)
deriving DecidableEq

/-- `SparticSession.BLOCK_SIZE`. -/
def SparticSession.BLOCK_SIZE : Nat := 4096

/-- The constructor together with the `sendKeys` it ends on: random 32-byte
halves for every peer (modelled by the `rand` oracle), empty `theirSharedKeys`
slots, no current round, `nextRound` at sequence 0, and one queued
`Key` message per peer.  `otherPubkeys` are distinct by the session contract. -/
def SparticSession.create (otherPubkeys : List Nat) (rand : Nat → List Nat) : SparticSession :=
  { otherPubkeys := otherPubkeys
    ourSharedKeys := otherPubkeys.map fun p => (p, rand p)
    theirSharedKeys := otherPubkeys.map fun p => (p, none)
    keystream := none
    currentRound := none
    nextRound := { sequenceNumber := 0, theirBlocks := [], ourBlock := none }
    queues := otherPubkeys.map fun p => (p, [OutMsg.key (rand p)])
    results := [] }

/-- The `missingKeys` count computed inside `receiveKey`. -/
def SparticSession.missingKeyCount (s : SparticSession) : Nat :=
  (s.otherPubkeys.filter fun p => (jsGetKey s.theirSharedKeys p).isNone).length

/-- `advanceRound()`.  With a current round present, its first statement
`blocks = [this.currentRound.ourBlock]` assigns an undeclared identifier,
which in a strict-mode ES module throws a `ReferenceError` before any state
is touched.  Otherwise the round buffers are swapped and a fresh `nextRound`
is allocated one sequence number ahead. -/
def SparticSession.advanceRound (s : SparticSession) : SparticSession × Option JsError :=
  match s.currentRound with
  | some _ => (s, some (.refError "blocks is not defined"))
  | none =>
    let cur := s.nextRound
    ({ s with
        currentRound := some cur
        nextRound := { sequenceNumber := cur.sequenceNumber + 1, theirBlocks := [], ourBlock := none } },
      none)

/-- `receiveKey(pubkey, sharedKey)`.  A duplicate key is answered with a
queued error.  Otherwise the key is stored; if keys are still missing the
method returns, and when the final key arrives the undeclared assignment
`secrets = []` throws a `ReferenceError` (strict mode), so the keystream is
never constructed and `advanceRound` is never reached. -/
def SparticSession.receiveKey (s : SparticSession) (pubkey : Nat) (sharedKey : List Nat) :
    SparticSession × Option JsError :=
  if (jsGetKey s.theirSharedKeys pubkey).isSome then
    let qe := pushMsg s.queues pubkey (.error "public key already received")
    ({ s with queues := qe.1 }, qe.2)
  else
    let s1 := { s with theirSharedKeys := setA s.theirSharedKeys pubkey (some sharedKey) }
    if 0 < s1.missingKeyCount then (s1, none)
    else (s1, some (.refError "secrets is not defined"))

/-- `receiveBlockForRound(pubkey, block, round)`.  A duplicate block is
answered with a queued error.  Otherwise the size check compares against
`this.prototype.BLOCK_SIZE`; instances have no `prototype` property, so the
access throws a `TypeError` and the block is never stored. -/
def receiveBlockForRound (queues : List (Nat × List OutMsg)) (pubkey : Nat)
    (block : List Nat) (round : SessionRound) :
    List (Nat × List OutMsg) × SessionRound × Option JsError :=
  if (List.lookup pubkey round.theirBlocks).isSome then
    let qe := pushMsg queues pubkey (.error "block is already here")
    (qe.1, round, qe.2)
  else
    (queues, round, some (.typeError "Cannot read properties of undefined (reading BLOCK_SIZE)"))

/-- The round-completion check at the end of `receiveBlock`.  If our block is
present the loop body reads `this.theirBlocks[pubkey]`; `theirBlocks` is not
an attribute of the session, so with at least one peer the access throws a
`TypeError`.  With no peers the loop is skipped and `advanceRound` runs. -/
def SparticSession.checkRoundDone (s : SparticSession) : SparticSession × Option JsError :=
  match s.currentRound with
  | none => (s, none)
  | some cur =>
    if cur.ourBlock.isNone then (s, none)
    else
      match s.otherPubkeys with
      | [] => s.advanceRound
      | _ :: _ => (s, some (.typeError "Cannot read properties of undefined (reading theirBlocks)"))

/-- `receiveBlock(pubkey, sequenceNumber, block)`: dispatch to the current or
next round, or queue an unacceptable-round error and return; after a dispatch
that neither returned early nor threw, run the completion check. -/
def SparticSession.receiveBlock (s : SparticSession) (pubkey sequenceNumber : Nat)
    (block : List Nat) : SparticSession × Option JsError :=
  let dispatch : SparticSession × Bool × Option JsError :=
    match s.currentRound with
    | some cur =>
      if sequenceNumber = cur.sequenceNumber then
        let qre := receiveBlockForRound s.queues pubkey block cur
        ({ s with queues := qre.1, currentRound := some qre.2.1 }, true, qre.2.2)
      else if sequenceNumber = s.nextRound.sequenceNumber then
        let qre := receiveBlockForRound s.queues pubkey block s.nextRound
        ({ s with queues := qre.1, nextRound := qre.2.1 }, true, qre.2.2)
      else
        let qe := pushMsg s.queues pubkey (.error "block is for an unacceptable round")
        ({ s with queues := qe.1 }, false, qe.2)
    | none =>
      if sequenceNumber = s.nextRound.sequenceNumber then
        let qre := receiveBlockForRound s.queues pubkey block s.nextRound
        ({ s with queues := qre.1, nextRound := qre.2.1 }, true, qre.2.2)
      else
        let qe := pushMsg s.queues pubkey (.error "block is for an unacceptable round")
        ({ s with queues := qe.1 }, false, qe.2)
  match dispatch with
  | (s1, _, some err) => (s1, some err)
  | (s1, false, none) => (s1, none)
  | (s1, true, none) => s1.checkRoundDone

/-- The broadcast loop of `participateInRound`: queue a `Block` message for
every peer, stopping with a `TypeError` if a peer has no queue. -/
def pushBlockLoop (queues : List (Nat × List OutMsg)) (pubkeys : List Nat)
    (seq : Nat) (blk : List Nat) : List (Nat × List OutMsg) × Option JsError :=
  match pubkeys with
  | [] => (queues, none)
  | p :: rest =>
    match pushMsg queues p (.block seq blk) with
    | (q', none) => pushBlockLoop q' rest seq blk
    | (q', some e) => (q', some e)

/-- `participateInRound(messageBuffer)`.  The three guards throw plain
`Error`s to the caller before any mutation.  On the success path the code
reads the keystream at `this.sequenceNumber`, an undefined attribute of the
session; in JavaScript `undefined >> 32` and `undefined & 0xFFFFFFFF` are
both 0, so the nonce is 24 zero bytes regardless of the round, never throws,
and the resulting block is broadcast with the current round's sequence
number. -/
def SparticSession.participateInRound (cipher : Cipher) (s : SparticSession)
    (messageBuffer : List Nat) : SparticSession × Option JsError :=
  if messageBuffer.length ≠ SparticSession.BLOCK_SIZE then
    (s, some (.error "Message to send is the wrong length"))
  else
    match s.currentRound with
    | none => (s, some (.error "No round is in progress; cannot send message"))
    | some cur =>
      if cur.ourBlock.isSome then
        (s, some (.error "Message already sent this round; cannot send message"))
      else
        match s.keystream with
        | none => (s, some (.typeError "Cannot read properties of undefined (reading read)"))
        | some ks =>
          let ksBytes := readRaw cipher ks.keys (List.replicate 24 0) SparticSession.BLOCK_SIZE
          let ourBlock := buffer_xor ksBytes messageBuffer
          let cur' := { cur with ourBlock := some ourBlock }
          let s1 := { s with currentRound := some cur' }
          let qe := pushBlockLoop s1.queues s.otherPubkeys cur'.sequenceNumber ourBlock
          ({ s1 with queues := qe.1 }, qe.2)

/-- `readyToParticipate()`. -/
def SparticSession.readyToParticipate (s : SparticSession) : Bool :=
  match s.currentRound with
  | none => false
  | some cur => cur.ourBlock.isNone

/-- `popMessage(pubkey)`: FIFO pop from the peer's queue, `null` when empty,
`TypeError` when the peer has no queue. -/
def SparticSession.popMessage (s : SparticSession) (pubkey : Nat) :
    (SparticSession × Option OutMsg) × Option JsError :=
  match List.lookup pubkey s.queues with
  | none => ((s, none), some (.typeError "Cannot read properties of undefined (reading length)"))
  | some [] => ((s, none), none)
  | some (m :: rest) => (({ s with queues := setA s.queues pubkey rest }, some m), none)

/-- `popResult()`: FIFO pop from the finished-round results. -/
def SparticSession.popResult (s : SparticSession) : SparticSession × Option (List Nat) :=
  match s.results with
  | [] => (s, none)
  | r :: rest => ({ s with results := rest }, some r)


/-- A cipher whose output is 0 everywhere, used to instantiate theorems on
concrete inputs. -/
def cipherZero : Cipher := fun _ _ _ => 0

/-- A cipher whose every output byte is byte 3 of the nonce; it distinguishes
the nonce layouts that differ at sequence number 1. -/
def cipherNonce3 : Cipher := fun nonce _ _ => nonce.getD 3 0

/-- A one-peer session in round 1 with its keystream set and no local block
yet. -/
def c3state : SparticSession :=
  { otherPubkeys := [1]
    ourSharedKeys := [(1, [3])]
    theirSharedKeys := [(1, some [4])]
    keystream := some { keys := [[8]] }
    currentRound := some { sequenceNumber := 1, theirBlocks := [], ourBlock := none }
    nextRound := { sequenceNumber := 2, theirBlocks := [], ourBlock := none }
    queues := [(1, [])]
    results := [] }

/-- A one-peer session in round 0 whose current round lacks only the local
block: the single peer block is already recorded. -/
def c4stateA : SparticSession :=
  { otherPubkeys := [1]
    ourSharedKeys := [(1, [3])]
    theirSharedKeys := [(1, some [4])]
    keystream := some { keys := [] }
    currentRound := some { sequenceNumber := 0, theirBlocks := [(1, [42])], ourBlock := none }
    nextRound := { sequenceNumber := 1, theirBlocks := [], ourBlock := none }
    queues := [(1, [])]
    results := [] }

/-- A one-peer session in round 0 whose current round is complete: the local
block and the single peer block are both present. -/
def c4stateB : SparticSession :=
  { otherPubkeys := [1]
    ourSharedKeys := [(1, [3])]
    theirSharedKeys := [(1, some [4])]
    keystream := some { keys := [] }
    currentRound := some { sequenceNumber := 0, theirBlocks := [(1, [42])], ourBlock := some [7] }
    nextRound := { sequenceNumber := 1, theirBlocks := [], ourBlock := none }
    queues := [(1, [])]
    results := [] }

/-- A one-peer session in round 0 with an empty current round. -/
def c7state : SparticSession :=
  { otherPubkeys := [1]
    ourSharedKeys := [(1, [3])]
    theirSharedKeys := [(1, some [4])]
    keystream := some { keys := [] }
    currentRound := some { sequenceNumber := 0, theirBlocks := [], ourBlock := none }
    nextRound := { sequenceNumber := 1, theirBlocks := [], ourBlock := none }
    queues := [(1, [])]
    results := [] }


/-- Classifier for the synchronous failures `participateInRound` raises at the
caller (`throw new Error(...)`), as opposed to queued peer errors. -/
def isCallerError : Option JsError → Bool
  | some (JsError.error _) => true
  | _ => false

/-- A `BLOCK_SIZE` message of zeros. -/
def zeros4096 : List Nat := List.replicate 4096 0

/-- The block `participateInRound` produces from `c3state` and a zero message:
the keystream is XORed in at the all-zero nonce coming from the undefined
`this.sequenceNumber`, not at the current round's sequence number 1. -/
def c3block : List Nat :=
  buffer_xor (readRaw cipherNonce3 [[8]] (List.replicate 24 0) SparticSession.BLOCK_SIZE)
    zeros4096

/-- The block `participateInRound` produces from `c4stateA` and a zero
message. -/
def c4blockA : List Nat :=
  buffer_xor (readRaw cipherZero [] (List.replicate 24 0) SparticSession.BLOCK_SIZE) zeros4096

theorem natxor_assoc (a b c : Nat) : Nat.xor (Nat.xor a b) c = Nat.xor a (Nat.xor b c) :=
  Nat.xor_assoc a b c

theorem natxor_comm (a b : Nat) : Nat.xor a b = Nat.xor b a :=
  Nat.xor_comm a b

theorem natxor_zero (a : Nat) : Nat.xor a 0 = a :=
  Nat.xor_zero a

theorem zero_natxor (a : Nat) : Nat.xor 0 a = a :=
  Nat.zero_xor a

theorem xorList_cons (x : Nat) (l : List Nat) : xorList (x :: l) = Nat.xor x (xorList l) :=
  rfl

theorem xorList_perm {l₁ l₂ : List Nat} (h : l₁.Perm l₂) : xorList l₁ = xorList l₂ := by
  induction h with
  | nil => rfl
  | cons x _ ih => rw [xorList_cons, xorList_cons, ih]
  | swap x y l =>
    rw [xorList_cons, xorList_cons, xorList_cons, xorList_cons,
      ← natxor_assoc, ← natxor_assoc, natxor_comm y x]
  | trans _ _ ih₁ ih₂ => exact ih₁.trans ih₂

theorem toX_xor (a b : Nat) : toX (Nat.xor a b) = toX a + toX b :=
  rfl

theorem xorNat_add_self (a : XorNat) : a + a = 0 :=
  Nat.xor_self a

theorem toX_xorList (l : List Nat) : toX (xorList l) = (l.map toX).sum := by
  induction l with
  | nil => rfl
  | cons a l ih => rw [xorList_cons, toX_xor, ih, List.map_cons, List.sum_cons]

theorem getD_buffer_xor : ∀ (a b : List Nat) (i : Nat), i < a.length → i < b.length →
    (buffer_xor a b).getD i 0 = Nat.xor (a.getD i 0) (b.getD i 0)
  | [], _, i, h1, _ => absurd h1 (by simp)
  | _ :: _, [], i, _, h2 => absurd h2 (by simp)
  | x :: a, y :: b, 0, _, _ => rfl
  | x :: a, y :: b, i + 1, h1, h2 =>
    getD_buffer_xor a b i (Nat.lt_of_succ_lt_succ h1) (Nat.lt_of_succ_lt_succ h2)

theorem foldl_bufxor_length {α : Type} (f : α → List Nat) (L : Nat) :
    ∀ (l : List α) (init : List Nat), (∀ a ∈ l, (f a).length = L) → init.length = L →
      (l.foldl (fun sc a => buffer_xor sc (f a)) init).length = L
  | [], _, _, hinit => hinit
  | a :: l, init, hf, hinit =>
    foldl_bufxor_length f L l (buffer_xor init (f a))
      (fun x hx => hf x (List.mem_cons_of_mem a hx))
      (by simp [buffer_xor, hinit, hf a (List.mem_cons_self a l)])

theorem foldl_bufxor_getD {α : Type} (f : α → List Nat) (L i : Nat) (hi : i < L) :
    ∀ (l : List α) (init : List Nat), (∀ a ∈ l, (f a).length = L) → init.length = L →
      (l.foldl (fun sc a => buffer_xor sc (f a)) init).getD i 0
        = Nat.xor (init.getD i 0) (xorList (l.map fun a => (f a).getD i 0))
  | [], init, _, _ => by simp [xorList, natxor_zero]
  | a :: l, init, hf, hinit => by
    rw [List.foldl_cons,
      foldl_bufxor_getD f L i hi l (buffer_xor init (f a))
        (fun x hx => hf x (List.mem_cons_of_mem a hx))
        (by simp [buffer_xor, hinit, hf a (List.mem_cons_self a l)]),
      getD_buffer_xor init (f a) i (hinit ▸ hi) ((hf a (List.mem_cons_self a l)) ▸ hi),
      List.map_cons, xorList_cons, natxor_assoc]

theorem streamBytes_length (c : Cipher) (nonce k : List Nat) (L : Nat) :
    (streamBytes c nonce k L).length = L := by
  simp [streamBytes]

theorem streamBytes_getD (c : Cipher) (nonce k : List Nat) (L i : Nat) (hi : i < L) :
    (streamBytes c nonce k L).getD i 0 = c nonce k i := by
  simp [streamBytes, List.getD_eq_getElem?_getD, List.getElem?_map, List.getElem?_range hi]

theorem readRaw_length (c : Cipher) (keys : List (List Nat)) (nonce : List Nat) (L : Nat) :
    (readRaw c keys nonce L).length = L :=
  foldl_bufxor_length _ L keys (List.replicate L 0)
    (fun k _ => streamBytes_length c nonce k L) (List.length_replicate L 0)

theorem readRaw_getD (c : Cipher) (keys : List (List Nat)) (nonce : List Nat) (L i : Nat)
    (hi : i < L) :
    (readRaw c keys nonce L).getD i 0 = xorList (keys.map fun k => c nonce k i) := by
  rw [readRaw,
    foldl_bufxor_getD _ L i hi keys (List.replicate L 0)
      (fun k _ => streamBytes_length c nonce k L) (List.length_replicate L 0)]
  have h0 : (List.replicate L 0).getD i 0 = 0 := by
    simp [List.getD_eq_getElem?_getD, List.getElem?_replicate, hi]
  rw [h0, zero_natxor]
  congr 1
  exact List.map_congr_left fun k _ => streamBytes_getD c nonce k L i hi

theorem xor_all_cons (b : List Nat) (rest : List (List Nat)) :
    xor_all (b :: rest) = some (rest.foldl buffer_xor b) := by
  cases rest <;> rfl

theorem xor_all_eq (L : Nat) (b : List Nat) (rest : List (List Nat))
    (hb : b.length = L) (hrest : ∀ x ∈ rest, x.length = L) :
    ∃ out, xor_all (b :: rest) = some out ∧ out.length = L ∧
      ∀ i, i < L → out.getD i 0 = xorList ((b :: rest).map fun x => x.getD i 0) := by
  refine ⟨rest.foldl buffer_xor b, xor_all_cons b rest, ?_, ?_⟩
  · exact foldl_bufxor_length id L rest b hrest hb
  · intro i hi
    rw [show rest.foldl buffer_xor b = rest.foldl (fun sc a => buffer_xor sc (id a)) b from rfl,
      foldl_bufxor_getD id L i hi rest b hrest hb, List.map_cons, xorList_cons]
    rfl

theorem list_eq_replicate_zero (L : Nat) (l : List Nat) (hlen : l.length = L)
    (h : ∀ i, i < L → l.getD i 0 = 0) : l = List.replicate L 0 := by
  apply List.ext_getElem (by simp [hlen])
  intro i h1 h2
  have hb := h i (hlen ▸ h1)
  rw [List.getD_eq_getElem?_getD, List.getElem?_eq_getElem h1] at hb
  simpa using hb

theorem sum_map_cond {α M : Type} [AddCommMonoid M] (l : List α) (P : α → Bool) (h : α → M) :
    ((l.filter P).map h).sum = (l.map fun a => if P a then h a else 0).sum := by
  induction l with
  | nil => rfl
  | cons a l ih =>
    by_cases hPa : P a = true
    · simp [List.filter_cons, hPa, ih]
    · simp only [Bool.not_eq_true] at hPa
      simp [List.filter_cons, hPa, ih]

theorem double_sum_symm_zero {N : Nat} (G : Fin N → Fin N → XorNat)
    (hsymm : ∀ p q, G p q = G q p) (hdiag : ∀ p, G p p = 0) :
    (∑ p : Fin N, ∑ q : Fin N, G p q) = 0 := by
  rw [← Finset.sum_product']
  refine Finset.sum_ninvolution (fun x => (x.2, x.1)) ?_ ?_ ?_ ?_
  · intro a
    show G a.1 a.2 + G a.2 a.1 = 0
    rw [hsymm a.2 a.1]
    exact xorNat_add_self _
  · intro a hne heq
    have h21 : a.2 = a.1 := congrArg Prod.fst heq
    exact hne (by rw [show G a.1 a.2 = G a.1 a.1 from by rw [h21], hdiag])
  · intro a
    exact Finset.mem_product.mpr ⟨Finset.mem_univ _, Finset.mem_univ _⟩
  · intro a
    rfl

/-- C2: for N ≥ 2 `SynchronizedKeystream` instances whose secret lists are
correctly paired — each pairwise secret `sec p q = sec q p` appears in exactly
the two paired participants' lists — the byte-wise XOR of all N
`read(sequence, length)` outputs is the all-zero block of that length,
whatever the stream cipher computes. -/
theorem c2_keystream_xor_to_zero
    (cipher : Cipher) (n : Nat) (hn : 2 ≤ n)
    (sec : Fin n → Fin n → List Nat) (hsym : ∀ p q, sec p q = sec q p)
    (streams : Fin n → SynchronizedKeystream)
    (hpaired : ∀ p, ((streams p).keys).Perm (pairedList n sec p))
    (s L : Nat) (outs : Fin n → List Nat)
    (hreads : ∀ p, (streams p).read cipher s L = some (outs p)) :
    xor_all ((List.finRange n).map outs) = some (List.replicate L 0) := by
  obtain ⟨m, rfl⟩ : ∃ m, n = m + 2 := ⟨n - 2, by omega⟩
  cases hnonce : nonceFor s with
  | none =>
    exfalso
    have h0 := hreads 0
    rw [SynchronizedKeystream.read, hnonce] at h0
    exact Option.noConfusion h0
  | some nonce =>
    have houts : ∀ p, readRaw cipher (streams p).keys nonce L = outs p := by
      intro p
      have hp := hreads p
      rw [SynchronizedKeystream.read, hnonce] at hp
      exact Option.some.inj hp
    have hlen : ∀ p, (outs p).length = L := fun p => by
      rw [← houts p]; exact readRaw_length cipher (streams p).keys nonce L
    have hsplit : (List.finRange (m + 2)).map outs
        = outs 0 :: ((List.finRange (m + 1)).map Fin.succ).map outs := by
      rw [List.finRange_succ_eq_map, List.map_cons]
    rw [hsplit]
    obtain ⟨out, hxa, hoL, hbyte⟩ :=
      xor_all_eq L (outs 0) (((List.finRange (m + 1)).map Fin.succ).map outs)
        (hlen 0) (by intro x hx; obtain ⟨p, _, rfl⟩ := List.mem_map.mp hx; exact hlen p)
    rw [hxa]
    congr 1
    apply list_eq_replicate_zero L out hoL
    intro i hi
    rw [hbyte i hi, ← hsplit, List.map_map]
    show xorList ((List.finRange (m + 2)).map fun p => (outs p).getD i 0) = 0
    have hX : toX (xorList ((List.finRange (m + 2)).map fun p => (outs p).getD i 0)) = 0 := by
      rw [toX_xorList, List.map_map]
      rw [show ((List.finRange (m + 2)).map (toX ∘ fun p => (outs p).getD i 0)).sum
          = ∑ p : Fin (m + 2), toX ((outs p).getD i 0) from
        (Fin.sum_univ_def fun p => toX ((outs p).getD i 0)).symm]
      have hper : ∀ p : Fin (m + 2), toX ((outs p).getD i 0)
          = ∑ q : Fin (m + 2),
              if q != p then toX (cipher nonce (sec p q) i) else 0 := by
        intro p
        rw [← houts p, readRaw_getD cipher (streams p).keys nonce L i hi,
          xorList_perm (List.Perm.map (fun k => cipher nonce k i) (hpaired p)),
          pairedList, List.map_map, toX_xorList, List.map_map]
        show (((List.finRange (m + 2)).filter fun q => q != p).map
            fun q => toX (cipher nonce (sec p q) i)).sum
          = ∑ q : Fin (m + 2), if q != p then toX (cipher nonce (sec p q) i) else 0
        rw [sum_map_cond (List.finRange (m + 2)) (fun q => q != p)
            (fun q => toX (cipher nonce (sec p q) i)),
          Fin.sum_univ_def]
      rw [Finset.sum_congr rfl fun p _ => hper p]
      apply double_sum_symm_zero
      · intro p q
        by_cases hpq : q = p
        · subst hpq; rfl
        · have h1 : (q != p) = true := by simp [hpq]
          have h2 : (p != q) = true := by simp [Ne.symm hpq]
          rw [if_pos h1, if_pos h2, hsym p q]
      · intro p
        simp
    exact hX

/-- Witness for C2 at a concrete instance: two participants sharing the single
pairwise secret `[5]`, a cipher that emits the first key byte, sequence 0 and
length 2. -/
theorem c2_keystream_xor_to_zero_witness :
    xor_all ((List.finRange 2).map fun _ => [5, 5]) = some (List.replicate 2 0) :=
  c2_keystream_xor_to_zero (fun _ key _ => key.headD 0) 2 (by decide)
    (fun _ _ => [5]) (fun _ _ => rfl) (fun _ => { keys := [[5]] })
    (by decide) 0 2 (fun _ => [5, 5]) (by decide)

theorem list_ext_len_getD (L : Nat) (l₁ l₂ : List Nat) (h₁ : l₁.length = L)
    (h₂ : l₂.length = L) (h : ∀ i, i < L → l₁.getD i 0 = l₂.getD i 0) : l₁ = l₂ := by
  apply List.ext_getElem (by rw [h₁, h₂])
  intro i hi1 hi2
  have hb := h i (h₁ ▸ hi1)
  rw [List.getD_eq_getElem?_getD, List.getD_eq_getElem?_getD,
    List.getElem?_eq_getElem hi1, List.getElem?_eq_getElem hi2] at hb
  simpa using hb

theorem readRaw_take (c : Cipher) (keys : List (List Nat)) (nonce : List Nat)
    (L1 L2 : Nat) (h : L1 ≤ L2) :
    (readRaw c keys nonce L2).take L1 = readRaw c keys nonce L1 := by
  apply list_ext_len_getD L1
  · rw [List.length_take, readRaw_length]
    omega
  · exact readRaw_length c keys nonce L1
  · intro i hi
    have ht : ((readRaw c keys nonce L2).take L1).getD i 0
        = (readRaw c keys nonce L2).getD i 0 := by
      rw [List.getD_eq_getElem?_getD, List.getD_eq_getElem?_getD,
        List.getElem?_take, if_pos hi]
    rw [ht, readRaw_getD c keys nonce L2 i (lt_of_lt_of_le hi h),
      readRaw_getD c keys nonce L1 i hi]

/-- C10: keystream reads are prefix-consistent across lengths: for one
keystream and sequence number, `read(s, L1)` is the first `L1` bytes of
`read(s, L2)` whenever `L1 ≤ L2`, since every read XORs the same per-secret
streams from position 0. -/
theorem c10_read_prefix_consistent (cipher : Cipher) (ks : SynchronizedKeystream)
    (s L1 L2 : Nat) (h : L1 ≤ L2) :
    ks.read cipher s L1 = (ks.read cipher s L2).map (List.take L1) := by
  rw [SynchronizedKeystream.read, SynchronizedKeystream.read]
  cases hn : nonceFor s with
  | none => rfl
  | some nonce =>
    rw [Option.map_some', Option.map_some', Option.map_some']
    exact congrArg some (readRaw_take cipher ks.keys nonce L1 L2 h).symm

/-- Witness for C10 at a concrete instance: prefix consistency of a
single-secret keystream at sequence 0 for lengths 1 ≤ 2. -/
theorem c10_read_prefix_consistent_witness :
    SynchronizedKeystream.read { keys := [[3]] } cipherZero 0 1
      = (SynchronizedKeystream.read { keys := [[3]] } cipherZero 0 2).map (List.take 1) :=
  c10_read_prefix_consistent cipherZero { keys := [[3]] } 0 1 2 (by decide)

/-- Counterexample to C5 as stated: at sequence number 1 with a cipher that
emits nonce byte 3, `read` produces a different block than it would with the
claimed `0^16 ‖ be64(1)` nonce, so the nonce is not the claimed one. -/
theorem c5_nonce_layout_counterexample :
    SynchronizedKeystream.read { keys := [[0]] } cipherNonce3 1 1
      ≠ some (readRaw cipherNonce3 [[0]] (specNonce 1) 1) := by
  decide

/-- C5 amended: for `s mod 2^32 < 2^31` (in particular for every
`s < 2^31`), `read(s, L)` keys every per-secret stream with the same 24-byte
nonce, namely `be32(s mod 2^32) ‖ be32(s mod 2^32) ‖ 0^16`: the big-endian
32-bit sequence number sits in bytes 0-3 and again in bytes 4-7 (JavaScript
evaluates `s >> 32` as a shift by 0), and the last 16 bytes are zero.  For
`s mod 2^32 ≥ 2^31` the nonce write throws a `RangeError` instead. -/
theorem c5_nonce_layout_amended (cipher : Cipher) (ks : SynchronizedKeystream)
    (s L : Nat) (hs : s % 2 ^ 32 < 2 ^ 31) :
    ks.read cipher s L
      = some (readRaw cipher ks.keys
          (be32 (s % 2 ^ 32) ++ be32 (s % 2 ^ 32) ++ List.replicate 16 0) L) := by
  have h1 : jsToInt32 s = ((s % 2 ^ 32 : Nat) : Int) := by
    rw [jsToInt32, if_pos hs]
  have h3 : ¬(((s % 2 ^ 32 : Nat) : Int) < 0 ∨ ((s % 2 ^ 32 : Nat) : Int) < 0) := by
    rw [or_self]
    exact not_lt.mpr (Int.natCast_nonneg _)
  have h2 : nonceFor s
      = some (be32 (s % 2 ^ 32) ++ be32 (s % 2 ^ 32) ++ List.replicate 16 0) := by
    rw [nonceFor]
    show (if jsToInt32 s < 0 ∨ jsToInt32 s < 0 then none
      else some (be32 (jsToInt32 s).toNat ++ be32 (jsToInt32 s).toNat ++ List.replicate 16 0)) = _
    rw [h1, if_neg h3, Int.toNat_natCast]
  rw [SynchronizedKeystream.read, h2, Option.map_some']

/-- Witness for the amended C5 at a concrete instance: sequence number 1. -/
theorem c5_nonce_layout_amended_witness :
    SynchronizedKeystream.read { keys := [] } cipherZero 1 0
      = some (readRaw cipherZero ({ keys := [] } : SynchronizedKeystream).keys
          (be32 (1 % 2 ^ 32) ++ be32 (1 % 2 ^ 32) ++ List.replicate 16 0) 0) :=
  c5_nonce_layout_amended cipherZero { keys := [] } 1 0 (by decide)

/-- C1 is blocked by the code: in a 2-party session, the arrival of the final
shared key makes `receiveKey` throw a `ReferenceError` (`secrets = []`
assigns an undeclared identifier in a strict-mode ES module), so the
keystream is never constructed and no round ever starts — round recovery via
`popResult` can never happen, against the claim that each participant
recovers the XOR of all round messages. -/
theorem c1_round_recovery_blocked :
    (SparticSession.receiveKey (SparticSession.create [1] fun _ => List.replicate 32 7) 1
        (List.replicate 32 9)).2 = some (JsError.refError "secrets is not defined")
    ∧ (SparticSession.receiveKey (SparticSession.create [1] fun _ => List.replicate 32 7) 1
        (List.replicate 32 9)).1.keystream = none
    ∧ (SparticSession.receiveKey (SparticSession.create [1] fun _ => List.replicate 32 7) 1
        (List.replicate 32 9)).1.currentRound = none := by
  decide

/-- C3 fails on the code: `participateInRound` reads the keystream at
`this.sequenceNumber`, an undefined attribute, which JavaScript coerces to the
all-zero nonce.  In a round with sequence number 1 the call succeeds and sets
`ourBlock`, but its first byte is 0, while the spec-required
`keystream.read(currentRound.sequenceNumber, BLOCK_SIZE) XOR message` has
first byte 1 under the same cipher. -/
theorem c3_participate_reads_undefined_attribute :
    (SparticSession.participateInRound cipherNonce3 c3state zeros4096).2 = none
    ∧ ((SparticSession.participateInRound cipherNonce3 c3state
          zeros4096).1.currentRound.bind SessionRound.ourBlock).map
        (fun b => b.getD 0 0) = some 0
    ∧ (SynchronizedKeystream.read { keys := [[8]] } cipherNonce3 1 4096).map
        (fun ks => (buffer_xor ks zeros4096).getD 0 0) = some 1 := by
  have hlen : ¬(zeros4096.length ≠ SparticSession.BLOCK_SIZE) := by
    rw [zeros4096, List.length_replicate]
    exact fun h => h rfl
  have hmain : SparticSession.participateInRound cipherNonce3 c3state zeros4096
      = ({ c3state with
            currentRound := some { sequenceNumber := 1, theirBlocks := [], ourBlock := some c3block },
            queues := [(1, [OutMsg.block 1 c3block])] }, none) := by
    simp only [SparticSession.participateInRound]
    rw [if_neg hlen]
    rfl
  refine ⟨by rw [hmain], ?_, ?_⟩
  · rw [hmain]
    show some (c3block.getD 0 0) = some 0
    rw [c3block,
      getD_buffer_xor _ _ 0 (by rw [readRaw_length]; decide)
        (by rw [zeros4096, List.length_replicate]; decide),
      readRaw_getD _ _ _ _ 0 (by decide)]
    decide
  · have hn : nonceFor 1 = some (be32 1 ++ be32 1 ++ List.replicate 16 0) := by decide
    rw [SynchronizedKeystream.read, hn, Option.map_some']
    show some ((buffer_xor (readRaw cipherNonce3 [[8]]
        (be32 1 ++ be32 1 ++ List.replicate 16 0) 4096) zeros4096).getD 0 0) = some 1
    rw [getD_buffer_xor _ _ 0 (by rw [readRaw_length]; decide)
        (by rw [zeros4096, List.length_replicate]; decide),
      readRaw_getD _ _ _ _ 0 (by decide)]
    decide

/-- C4 fails on the code on both triggering paths.  From `c4stateA` (all peer
blocks recorded, local block missing) `participateInRound` completes the
round but performs no completion check: no result is appended and the round
does not advance.  From `c4stateB` (round complete except that the arriving
block is a duplicate) `receiveBlock` reaches the completion check, which
reads the undefined session attribute `this.theirBlocks` and throws a
`TypeError` instead of advancing. -/
theorem c4_completion_never_advances :
    ((SparticSession.participateInRound cipherZero c4stateA zeros4096).2 = none
      ∧ (SparticSession.participateInRound cipherZero c4stateA zeros4096).1.results = []
      ∧ ((SparticSession.participateInRound cipherZero c4stateA
            zeros4096).1.currentRound.map SessionRound.sequenceNumber) = some 0
      ∧ ((SparticSession.participateInRound cipherZero c4stateA
            zeros4096).1.currentRound.bind SessionRound.ourBlock).isSome = true)
    ∧ (SparticSession.receiveBlock c4stateB 1 0 [42]).2
        = some (JsError.typeError "Cannot read properties of undefined (reading theirBlocks)")
    ∧ (SparticSession.receiveBlock c4stateB 1 0 [42]).1.results = [] := by
  have hlen : ¬(zeros4096.length ≠ SparticSession.BLOCK_SIZE) := by
    rw [zeros4096, List.length_replicate]
    exact fun h => h rfl
  have hmainA : SparticSession.participateInRound cipherZero c4stateA zeros4096
      = ({ c4stateA with
            currentRound := some { sequenceNumber := 0, theirBlocks := [(1, [42])], ourBlock := some c4blockA },
            queues := [(1, [OutMsg.block 0 c4blockA])] }, none) := by
    simp only [SparticSession.participateInRound]
    rw [if_neg hlen]
    rfl
  exact ⟨⟨by rw [hmainA], by rw [hmainA]; rfl, by rw [hmainA]; rfl, by rw [hmainA]; rfl⟩,
    by decide, by decide⟩

/-- C6: a block whose sequence number matches neither the current round nor
the next round is answered with exactly one queued
`Error("block is for an unacceptable round")` on that peer's queue, and the
session state is otherwise unchanged: no round stores the block, no result is
produced, and no round advances. -/
theorem c6_out_of_window_rejected
    (s : SparticSession) (cur : SessionRound) (p seq : Nat) (blk : List Nat) (q : List OutMsg)
    (hcur : s.currentRound = some cur)
    (h1 : seq ≠ cur.sequenceNumber)
    (h2 : seq ≠ s.nextRound.sequenceNumber)
    (hq : List.lookup p s.queues = some q) :
    s.receiveBlock p seq blk
      = ({ s with queues := setA s.queues p (q ++ [OutMsg.error "block is for an unacceptable round"]) }, none) := by
  simp only [SparticSession.receiveBlock, hcur, h1, h2, pushMsg, hq, if_false, ite_false]

/-- Witness for C6: a one-peer session in round 0 receiving a block for
sequence number 5. -/
theorem c6_out_of_window_rejected_witness :
    SparticSession.receiveBlock c7state 1 5 [9]
      = ({ c7state with queues := setA c7state.queues 1 ([] ++ [OutMsg.error "block is for an unacceptable round"]) }, none) :=
  c6_out_of_window_rejected c7state { sequenceNumber := 0, theirBlocks := [], ourBlock := none }
    1 5 [9] [] rfl (by decide) (by decide) rfl

/-- C7 fails on the code: for an in-window block from a peer with no block
recorded yet, the size check reads `this.prototype.BLOCK_SIZE` — undefined on
an instance — and throws a `TypeError` whether the block has exactly 4096
bytes or not; nothing is stored and no size error is queued. -/
theorem c7_size_check_throws :
    SparticSession.receiveBlock c7state 1 0 (List.replicate 4096 5)
      = (c7state, some (JsError.typeError "Cannot read properties of undefined (reading BLOCK_SIZE)"))
    ∧ SparticSession.receiveBlock c7state 1 0 (List.replicate 5 5)
      = (c7state, some (JsError.typeError "Cannot read properties of undefined (reading BLOCK_SIZE)")) := by
  decide

/-- C8: a duplicate shared key from a peer that already delivered one is
answered with exactly one queued `Error("public key already received")` on
that peer's queue; `theirSharedKeys` keeps its value and no keystream
construction or round advancement happens. -/
theorem c8_duplicate_key_rejected
    (s : SparticSession) (p : Nat) (k k2 : List Nat) (q : List OutMsg)
    (hp : p ∈ s.otherPubkeys)
    (hk : jsGetKey s.theirSharedKeys p = some k)
    (hq : List.lookup p s.queues = some q) :
    s.receiveKey p k2
      = ({ s with queues := setA s.queues p (q ++ [OutMsg.error "public key already received"]) }, none) := by
  simp only [SparticSession.receiveKey, hk, Option.isSome_some, if_true, pushMsg, hq]

/-- Witness for C8: a one-peer session that already holds the peer's key
receives a second key. -/
theorem c8_duplicate_key_rejected_witness :
    SparticSession.receiveKey c3state 1 [9]
      = ({ c3state with queues := setA c3state.queues 1 ([] ++ [OutMsg.error "public key already received"]) }, none) :=
  c8_duplicate_key_rejected c3state 1 [4] [9] [] (by decide) rfl rfl

/-- C9: with a wrong-size message, no current round, or a current round whose
`ourBlock` is already set, `participateInRound` fails synchronously with a
caller-side `Error` and the session state — rounds, queues, results, keys,
keystream — is returned exactly as it was. -/
theorem c9_local_misuse_no_mutation
    (cipher : Cipher) (s : SparticSession) (msg : List Nat)
    (h : msg.length ≠ SparticSession.BLOCK_SIZE ∨ s.currentRound = none ∨
      ∃ cur, s.currentRound = some cur ∧ cur.ourBlock.isSome = true) :
    (SparticSession.participateInRound cipher s msg).1 = s
      ∧ isCallerError (SparticSession.participateInRound cipher s msg).2 = true := by
  by_cases hlen : msg.length ≠ SparticSession.BLOCK_SIZE
  · simp [SparticSession.participateInRound, if_pos hlen, isCallerError]
  · rcases h with h | h | ⟨cur, hcur, hblk⟩
    · exact absurd h hlen
    · simp [SparticSession.participateInRound, if_neg hlen, h, isCallerError]
    · simp [SparticSession.participateInRound, if_neg hlen, hcur, hblk, isCallerError]

/-- Witness for C9: an empty (wrong-size) message on a ready session. -/
theorem c9_local_misuse_no_mutation_witness :
    (SparticSession.participateInRound cipherZero c3state []).1 = c3state
      ∧ isCallerError (SparticSession.participateInRound cipherZero c3state []).2 = true :=
  c9_local_misuse_no_mutation cipherZero c3state [] (Or.inl (by decide))
